import Mathlib

/-!
Verification of the whisper_gui frontend against its specification.

The definitions below are a shallow embedding of the TypeScript sources:
  * `frontend/src/App.tsx` — form state, submission payloads, duration and
    processing-time estimates, the log-deduplication effect, the burn flow;
  * `frontend/src/hooks/useJobPoller.ts` — the polling state machine;
  * `frontend/src/providers/I18nProvider.tsx` — the translation function.

JavaScript numbers are modelled as `ℚ` (the values involved are exact
decimals), nullable values as `Option`, and JS string keys as `String`.
-/

namespace WhisperGui

/-- Job status, from `useJobPoller.ts` (`JobStatus`). -/
inductive JobStatus where
  | queued
  | running
  | succeeded
  | failed
  | cancelled
deriving DecidableEq, Repr

/-- `isTerminal s` holds for the statuses the poller treats as final:
the literal disjunction `status === 'succeeded' || 'failed' || 'cancelled'`
tested in `useJobPoller.ts`. -/
def isTerminal : JobStatus → Bool
  | .succeeded => true
  | .failed => true
  | .cancelled => true
  | _ => false

/-- A `(timestamp, message)` log entry, from `useJobPoller.ts` (`JobLogEntry`). -/
structure JobLogEntry where
  timestamp : String
  message : String
deriving DecidableEq, Repr

/-- Artifact links, from `useJobPoller.ts` (`JobResultLinks`). -/
structure JobResultLinks where
  srt : Option String
  vtt : Option String
  json : Option String
deriving DecidableEq, Repr

/-- A `GET /jobs/{id}` snapshot, from `useJobPoller.ts` (`JobResponse`).
Optional fields of the TS interface become `Option`. -/
structure JobResponse where
  id : String
  status : JobStatus
  progress : Option ℚ
  eta_seconds : Option ℚ
  logs : Option (List JobLogEntry)
  results : Option JobResultLinks
  duration_seconds : Option ℚ
deriving DecidableEq, Repr

/-! ### Model speed factors and estimates (`App.tsx`) -/

/-- `MODEL_SPEED_FACTORS` record from `App.tsx`; `none` for a key the record
does not have (JS property access yields `undefined`). -/
def MODEL_SPEED_FACTORS : String → Option ℚ
  | "tiny" => some (8/10)
  | "base" => some 1
  | "small" => some (12/10)
  | "medium" => some (16/10)
  | "large" => some 2
  | "large-v2" => some (21/10)
  | "distil-large-v2" => some (13/10)
  | _ => none

/-- The factor actually used by `estimateProcessingSeconds`:
`MODEL_SPEED_FACTORS[model] ?? 1`. -/
def modelFactor (model : String) : ℚ :=
  (MODEL_SPEED_FACTORS model).getD 1

/-- The constant `assumedBytesPerSecond = 16000` from
`estimateDurationFromFile` in `App.tsx`. -/
def assumedBytesPerSecond : ℚ := 16000

/-- The part of a JS `File` object the frontend reads: its byte size. -/
structure JsFile where
  size : ℚ
deriving DecidableEq, Repr

/-- `estimateDurationFromFile` from `App.tsx`: `null` when no file is
selected, otherwise `file.size / assumedBytesPerSecond`. -/
def estimateDurationFromFile : Option JsFile → Option ℚ
  | none => none
  | some file => some (file.size / assumedBytesPerSecond)

/-- `estimateProcessingSeconds` from `App.tsx`. The guard
`if (!durationSeconds) return null` is falsy on both `null` and `0`,
so a zero duration also yields `null`. -/
def estimateProcessingSeconds (durationSeconds : Option ℚ) (model : String) : Option ℚ :=
  match durationSeconds with
  | none => none
  | some d => if d = 0 then none else some (d * modelFactor model)

/-! ### Poller state machine (`useJobPoller.ts`) -/

/-- Outcome of one `load()` round in `useJobPoller.ts`: a 2xx response with a
parsed payload, a thrown error carrying a message (non-2xx body text or a
network failure), or an abort (early return, no state change). -/
inductive FetchOutcome where
  | success (payload : JobResponse)
  | failure (message : String)
  | aborted
deriving DecidableEq, Repr

/-- The poller's React state plus whether its `setInterval` timer is still
scheduled (`intervalRef`). -/
structure PollerState where
  data : Option JobResponse
  error : Option String
  timerActive : Bool
deriving DecidableEq, Repr

/-- One `load()` completion in `useJobPoller.ts`:
on success `setData(payload); setError(null)` and `clearInterval` if the
status is terminal; on a thrown error only `setError(message)`; on abort
nothing. -/
def pollerStep (st : PollerState) : FetchOutcome → PollerState
  | .success payload =>
      { data := some payload
        error := none
        timerActive := if isTerminal payload.status then false else st.timerActive }
  | .failure message => { st with error := some message }
  | .aborted => st

/-- The fixed polling period passed to `window.setInterval` in
`useJobPoller.ts`. -/
def POLL_INTERVAL_MS : ℕ := 2000

/-- The URL template of a poll request in `useJobPoller.ts`. -/
def pollUrl (jobId : String) : String := "/jobs/" ++ jobId

/-! ### Log deduplication (`App.tsx`, logs `useEffect`) -/

/-- The JS `Map` key built in the logs effect:
the template literal `${entry.timestamp}-${entry.message}`. -/
def logKey (e : JobLogEntry) : String := e.timestamp ++ "-" ++ e.message

/-- `Map.set` semantics on an insertion-ordered association list: if the key
is present, its value is updated in place (position kept); otherwise the
binding is appended. -/
def mapSet (m : List (String × JobLogEntry)) (e : JobLogEntry) : List (String × JobLogEntry) :=
  if m.any (fun p => p.1 == logKey e) then
    m.map (fun p => if p.1 == logKey e then (p.1, e) else p)
  else m ++ [(logKey e, e)]

/-- The `for (const entry of next) map.set(...)` loop of the logs effect. -/
def buildLogMap (entries : List JobLogEntry) : List (String × JobLogEntry) :=
  entries.foldl mapSet []

/-- JS `array.slice(-n)`: the last `n` elements (the whole array when it is
shorter than `n`). -/
def jsSliceLast (n : ℕ) (l : List α) : List α := l.drop (l.length - n)

/-- The logs `useEffect` state update in `App.tsx`:
concatenate the previous list with the incoming snapshot's logs, deduplicate
through a JS `Map` keyed by `${timestamp}-${message}`, and keep the last 30
values. -/
def updateLogs (prev incoming : List JobLogEntry) : List JobLogEntry :=
  jsSliceLast 30 ((buildLogMap (prev ++ incoming)).map Prod.snd)

/-- Specification device: the effect of one `Map.set` on the key sequence —
keep the sequence if the key is already present, else append it. -/
def stepKeys (ks : List String) (k : String) : List String :=
  if k ∈ ks then ks else ks ++ [k]

/-- Specification device: the keys of a list in order of first appearance. -/
def firstOccKeys (ks : List String) : List String := ks.foldl stepKeys []

/-! ### Form state and submission (`App.tsx`) -/

/-- `Number.parseInt` output modelled as `Option ℤ` (`none` for `NaN`);
`ensureNumber` falls back when the parse is not finite. -/
def ensureNumber (parsed : Option ℤ) (fallback : ℤ) : ℤ :=
  parsed.getD fallback

/-- The speaker-related part of the form state (`BaseFormState`). -/
structure SpeakerForm where
  diarization : Bool
  minSpeakers : ℤ
  maxSpeakers : ℤ
deriving DecidableEq, Repr

/-- The `max` attribute of the min-speakers input:
`ensureNumber(form.maxSpeakers.toString(), 2)`; parsing an integer's own
string form always succeeds. -/
def minInputMaxAttr (f : SpeakerForm) : ℤ := ensureNumber (some f.maxSpeakers) 2

/-- The `min` attribute of the max-speakers input:
`ensureNumber(form.minSpeakers.toString(), 1)`. -/
def maxInputMinAttr (f : SpeakerForm) : ℤ := ensureNumber (some f.minSpeakers) 1

/-- HTML constraint validation of the two speaker number inputs, as declared
in the JSX: the min-speakers input carries `min={1}` and
`max={minInputMaxAttr}`, the max-speakers input carries `min={maxInputMinAttr}`;
both carry `disabled={!form.diarization}`, and a disabled control is barred
from constraint validation, so the browser lets the submit event through
exactly when every enabled input is within its declared range. -/
def speakerInputsSubmittable (f : SpeakerForm) : Bool :=
  if f.diarization then
    (1 ≤ f.minSpeakers && f.minSpeakers ≤ minInputMaxAttr f)
      && maxInputMinAttr f ≤ f.maxSpeakers
  else true

/-- The speaker fields of the submission payload built in `handleSubmit`
(identical for the multipart and the JSON branch):
`min_speakers = form.minSpeakers`, `max_speakers = form.maxSpeakers`,
`diarization = form.diarization`, copied verbatim with no clamping. -/
structure SubmitSpeakerFields where
  diarization : Bool
  min_speakers : ℤ
  max_speakers : ℤ
deriving DecidableEq, Repr

/-- `handleSubmit`'s construction of the speaker fields of the payload. -/
def submittedSpeakerFields (f : SpeakerForm) : SubmitSpeakerFields :=
  { diarization := f.diarization
    min_speakers := f.minSpeakers
    max_speakers := f.maxSpeakers }

/-! ### Error surfacing (`App.tsx` and `useJobPoller.ts`) -/

/-- An HTTP response as the frontend consumes it: the `ok` flag
(2xx or not) and the body read as plain text by `response.text()`. -/
structure HttpResponse where
  ok : Bool
  bodyText : String
deriving DecidableEq, Repr

/-- `handleSubmit`'s error surfacing: `if (!response.ok) throw new
Error(await response.text())`, caught by `setSubmitError(error.message)`;
`none` when the response is 2xx. -/
def submitErrorShown (resp : HttpResponse) : Option String :=
  if resp.ok then none else some resp.bodyText

/-- `handleBurn`'s error surfacing, same pattern as `handleSubmit`. -/
def burnErrorShown (resp : HttpResponse) : Option String :=
  if resp.ok then none else some resp.bodyText

/-- How `load()` in `useJobPoller.ts` converts a completed fetch into a
poller event: a 2xx response parses the payload, a non-2xx response throws
`new Error(await response.text())`. -/
def pollOutcomeOf (resp : HttpResponse) (payload : JobResponse) : FetchOutcome :=
  if resp.ok then .success payload else .failure resp.bodyText

/-! ### Progress rendering (`App.tsx`) -/

/-- JS `Math.round` on the exact rationals in play: `⌊x + 1/2⌋`. -/
def jsRound (q : ℚ) : ℤ := ⌊q + 1/2⌋

/-- `progressValue = Math.round((jobData?.progress ?? 0) * 100)` from
`App.tsx`, applied to the poller's stored snapshot verbatim. -/
def progressValue (data : Option JobResponse) : ℤ :=
  jsRound ((data.bind JobResponse.progress).getD 0 * 100)

/-- Modelled from the spec: the backend (the job pipeline behind
`GET /jobs/{id}`, not present in the frontend sources) guarantees that
`progress` is "monotonically non-decreasing while `running`". This predicate
states that contract for a sequence of successive snapshots of one job:
`progress` (with the `?? 0` default the renderer applies) never decreases
between two consecutive snapshots that are both `running`. -/
def runningProgressMono : List JobResponse → Bool
  | a :: b :: rest =>
      (!(a.status == JobStatus.running) || !(b.status == JobStatus.running)
          || decide ((a.progress.getD 0) ≤ (b.progress.getD 0)))
        && runningProgressMono (b :: rest)
  | _ => true

/-- Bool check that the rendered percentage never decreases between two
consecutive snapshots that are both `running`. -/
def renderedProgressMono : List JobResponse → Bool
  | a :: b :: rest =>
      (!(a.status == JobStatus.running) || !(b.status == JobStatus.running)
          || decide (progressValue (some a) ≤ progressValue (some b)))
        && renderedProgressMono (b :: rest)
  | _ => true

/-! ### Burn flow (`App.tsx`, `ResultCard` and `handleBurn`) -/

/-- The burn button's phase, `useState<'idle' | 'running' | 'done'>`. -/
inductive BurnPhase where
  | idle
  | running
  | done
deriving DecidableEq, Repr

/-- The slice of `App` state that the burn flow reads and writes, extended
with two ghost fields for specification: `inFlight` counts outstanding
burn requests, `requests` records the job snapshot present at each issued
burn request. -/
structure BurnAppState where
  jobId : Option String
  jobData : Option JobResponse
  burnState : BurnPhase
  inFlight : ℕ
  requests : List JobResponse
deriving DecidableEq, Repr

/-- App state right after a successful submission:
`setJobId(payload.id)` with no snapshot yet and `burnState` reset to idle. -/
def burnAppInit (id : String) : BurnAppState :=
  { jobId := some id
    jobData := none
    burnState := .idle
    inFlight := 0
    requests := [] }

/-- User-visible events of the burn flow. -/
inductive BurnEvent where
  | snapshot (s : JobResponse)
  | clickBurn
  | burnDone (ok : Bool)
deriving DecidableEq, Repr

/-- `ResultCard` renders only when `job && job.results`, and its button is
`disabled={burnState === 'running'}` — so a click can fire `handleBurn` only
when the stored snapshot has `results` set and no burn is running; inside
`handleBurn`, a missing `jobId` returns early. -/
def burnClickFires (st : BurnAppState) : Bool :=
  (match st.jobData with
   | some s => s.results.isSome
   | none => false)
    && !(st.burnState == BurnPhase.running) && st.jobId.isSome

/-- One event of the burn flow. A snapshot stores the payload; a click that
fires issues the `POST /jobs/{id}/burn` request and sets `burnState` to
running before awaiting it; the request's completion sets `done` on a 2xx
response and, on failure, surfaces the error and resets to idle. -/
def burnStep (st : BurnAppState) : BurnEvent → BurnAppState
  | .snapshot s => { st with jobData := some s }
  | .clickBurn =>
      if burnClickFires st then
        { st with
          burnState := .running
          inFlight := st.inFlight + 1
          requests := st.requests ++ st.jobData.toList }
      else st
  | .burnDone ok =>
      if st.burnState == BurnPhase.running then
        { st with
          burnState := if ok then .done else .idle
          inFlight := st.inFlight - 1 }
      else st

/-- Run the burn flow from the post-submission state over a sequence of
events. -/
def burnRun (id : String) (events : List BurnEvent) : BurnAppState :=
  events.foldl burnStep (burnAppInit id)

/-- Modelled from the spec: the backend's Job invariant (not present in the
frontend sources) that `results` "is set if and only if status is
`succeeded`". An event respects the server contract when any snapshot it
delivers with `results` set has status `succeeded`. -/
def burnEventOk : BurnEvent → Bool
  | .snapshot s => !s.results.isSome || s.status == JobStatus.succeeded
  | _ => true

/-- Invariant of the burn flow: `inFlight` is 1 exactly while `burnState` is
`running` (so never exceeds 1), every recorded burn request was issued
against a snapshot with `results` set and status `succeeded`, and the stored
snapshot respects the server contract. -/
def burnInv (st : BurnAppState) : Prop :=
  st.inFlight = (if st.burnState = .running then 1 else 0)
  ∧ (∀ s ∈ st.requests, s.results.isSome = true ∧ s.status = JobStatus.succeeded)
  ∧ (∀ s, st.jobData = some s → s.results.isSome = true → s.status = JobStatus.succeeded)

/-! ### Translation function (`I18nProvider.tsx`) -/

/-- A translation dictionary as an association list from keys to translated
strings (the own entries of the `translations[language]` plain-object
literal). -/
def Dictionary := List (String × String)

/-- A runtime value produced by JS bracket access on a plain object: a
string own entry, or a non-string value inherited from `Object.prototype`
(a method such as `toString`, or the prototype object itself for
`__proto__`), identified by the member name. -/
inductive JsValue where
  | str (s : String)
  | inherited (name : String)
deriving DecidableEq, Repr

/-- The member names a plain JS object literal inherits from
`Object.prototype` (and the `__proto__` accessor); bracket access on these
yields a non-nullish, non-string value even when the object has no such own
entry. -/
def objectProtoKeys : List String :=
  ["constructor", "hasOwnProperty", "isPrototypeOf", "propertyIsEnumerable",
    "toLocaleString", "toString", "valueOf", "__proto__",
    "__defineGetter__", "__defineSetter__", "__lookupGetter__", "__lookupSetter__"]

/-- Own-property lookup on the dictionary record: the entry written in the
object literal, `none` when the record has no such own property. -/
def dictLookup (dict : Dictionary) (key : String) : Option String :=
  (dict.find? (fun p => p.1 == key)).map Prod.snd

/-- JS bracket access `dictionary[key]` on a plain object literal: an own
entry shadows the prototype; otherwise the access walks the prototype chain
and yields the inherited `Object.prototype` member when the key names one;
only otherwise is the result `undefined` (`none`). -/
def jsGet (dict : Dictionary) (key : String) : Option JsValue :=
  match dictLookup dict key with
  | some v => some (.str v)
  | none => if key ∈ objectProtoKeys then some (.inherited key) else none

/-- The translation function of `I18nProvider.tsx`:
`t = (key) => dictionary[key] ?? key`. The nullish coalescing falls back to
the key only when the bracket access is `undefined`; an inherited
`Object.prototype` member is non-nullish and is returned as-is. The Lean
type `String → JsValue` witnesses that `t` always produces a value and
never throws or returns `undefined`. -/
def tFun (dict : Dictionary) (key : String) : JsValue :=
  (jsGet dict key).getD (.str key)

/-! ### Concrete sample data -/

/-- A sample snapshot of a running job at 25% progress. -/
def demoRunningSnap1 : JobResponse :=
  { id := "job-1", status := .running, progress := some (1/4), eta_seconds := some 90
    logs := none, results := none, duration_seconds := some 120 }

/-- A sample later snapshot of the same running job at 50% progress. -/
def demoRunningSnap2 : JobResponse :=
  { id := "job-1", status := .running, progress := some (1/2), eta_seconds := some 60
    logs := none, results := none, duration_seconds := some 120 }

/-- A sample terminal (succeeded) snapshot with an artifact link. -/
def demoTerminalSnap : JobResponse :=
  { id := "job-1", status := .succeeded, progress := some 1, eta_seconds := some 0
    logs := none, results := some { srt := some "/files/a.srt", vtt := none, json := none }
    duration_seconds := some 120 }

/-- A sample burn-flow run: a succeeded snapshot arrives, the user clicks
burn, the burn completes. -/
def demoBurnEvents : List BurnEvent :=
  [.snapshot demoTerminalSnap, .clickBurn, .burnDone true]

/-! ## Helper lemmas -/

lemma map_fst_mapSet (m : List (String × JobLogEntry)) (e : JobLogEntry) :
    (mapSet m e).map Prod.fst = stepKeys (m.map Prod.fst) (logKey e) := by
  unfold mapSet stepKeys
  by_cases h : logKey e ∈ m.map Prod.fst
  · have hany : (m.any fun p => p.1 == logKey e) = true := by
      rw [List.any_eq_true]
      obtain ⟨p, hp, hpk⟩ := List.mem_map.mp h
      exact ⟨p, hp, by simp [hpk]⟩
    rw [if_pos hany, if_pos h, List.map_map]
    apply List.map_congr_left
    intro p hp
    by_cases hk : p.1 = logKey e <;> simp [hk]
  · have hany : (m.any fun p => p.1 == logKey e) = false := by
      rw [Bool.eq_false_iff]
      intro habs
      rw [List.any_eq_true] at habs
      obtain ⟨p, hp, hpk⟩ := habs
      rw [beq_iff_eq] at hpk
      exact h (List.mem_map.mpr ⟨p, hp, hpk⟩)
    rw [if_neg (by simp [hany]), if_neg h]
    simp

lemma map_fst_foldl_mapSet : ∀ (es : List JobLogEntry) (acc : List (String × JobLogEntry)),
    ((es.foldl mapSet acc).map Prod.fst) = (es.map logKey).foldl stepKeys (acc.map Prod.fst)
  | [], _ => rfl
  | e :: es, acc => by
      simp only [List.foldl_cons, List.map_cons]
      rw [map_fst_foldl_mapSet es (mapSet acc e), map_fst_mapSet]

lemma stepKeys_nodup {ks : List String} (h : ks.Nodup) (k : String) : (stepKeys ks k).Nodup := by
  unfold stepKeys
  split
  · exact h
  · next hk =>
      refine List.Nodup.append h (List.nodup_singleton k) ?_
      intro a ha hak
      rw [List.mem_singleton] at hak
      subst hak
      exact hk ha

lemma foldl_stepKeys_nodup : ∀ (ks acc : List String), acc.Nodup → (ks.foldl stepKeys acc).Nodup
  | [], _, h => h
  | k :: ks, acc, h => foldl_stepKeys_nodup ks (stepKeys acc k) (stepKeys_nodup h k)

lemma mem_foldl_stepKeys : ∀ (ks acc : List String) (k : String),
    k ∈ ks.foldl stepKeys acc ↔ k ∈ acc ∨ k ∈ ks
  | [], acc, k => by simp
  | k' :: ks, acc, k => by
      simp only [List.foldl_cons]
      rw [mem_foldl_stepKeys ks (stepKeys acc k') k]
      unfold stepKeys
      split
      · next h =>
          simp only [List.mem_cons]
          constructor
          · rintro (h1 | h1)
            · exact Or.inl h1
            · exact Or.inr (Or.inr h1)
          · rintro (h1 | h1 | h1)
            · exact Or.inl h1
            · exact Or.inl (h1 ▸ h)
            · exact Or.inr h1
      · next h =>
          simp only [List.mem_append, List.mem_singleton, List.mem_cons]
          tauto

lemma foldl_mapSet_key_consistent : ∀ (es : List JobLogEntry) (acc : List (String × JobLogEntry)),
    (∀ p ∈ acc, p.1 = logKey p.2) → ∀ p ∈ es.foldl mapSet acc, p.1 = logKey p.2
  | [], _, h => h
  | e :: es, acc, h => by
      apply foldl_mapSet_key_consistent es (mapSet acc e)
      intro p hp
      unfold mapSet at hp
      split at hp
      · obtain ⟨q, hq, hqe⟩ := List.mem_map.mp hp
        by_cases hk : q.1 = logKey e
        · rw [if_pos (by simp [hk])] at hqe
          rw [← hqe, hk]
        · rw [if_neg (by simp [hk])] at hqe
          exact hqe ▸ h q hq
      · rw [List.mem_append] at hp
        rcases hp with hp | hp
        · exact h p hp
        · rw [List.mem_singleton] at hp
          subst hp
          rfl

lemma jsRound_mono {p q : ℚ} (h : p ≤ q) : jsRound p ≤ jsRound q :=
  Int.floor_le_floor (by linarith)

lemma progressValue_mono {a b : JobResponse}
    (h : a.progress.getD 0 ≤ b.progress.getD 0) :
    progressValue (some a) ≤ progressValue (some b) := by
  unfold progressValue
  apply jsRound_mono
  have ha : (some a).bind JobResponse.progress = a.progress := rfl
  have hb : (some b).bind JobResponse.progress = b.progress := rfl
  rw [ha, hb]
  have h100 : (0 : ℚ) ≤ 100 := by norm_num
  exact mul_le_mul_of_nonneg_right h h100

lemma renderedMono_of_runningMono : ∀ (snaps : List JobResponse),
    runningProgressMono snaps = true → renderedProgressMono snaps = true
  | [], _ => rfl
  | [_], _ => rfl
  | a :: b :: rest, h => by
      unfold runningProgressMono at h
      unfold renderedProgressMono
      rw [Bool.and_eq_true] at h ⊢
      refine ⟨?_, renderedMono_of_runningMono (b :: rest) h.2⟩
      have h1 := h.1
      rw [Bool.or_eq_true] at h1 ⊢
      rcases h1 with h1 | h1
      · exact Or.inl h1
      · refine Or.inr ?_
        rw [decide_eq_true_iff] at h1 ⊢
        exact progressValue_mono h1

lemma timer_stays_off : ∀ (outcomes : List FetchOutcome) (st : PollerState),
    st.timerActive = false → (outcomes.foldl pollerStep st).timerActive = false
  | [], _, h => h
  | o :: os, st, h => by
      apply timer_stays_off os
      cases o with
      | success payload => simp [pollerStep, h]
      | failure m => simpa [pollerStep] using h
      | aborted => simpa [pollerStep] using h

lemma burnStep_preserves_inv {st : BurnAppState} {e : BurnEvent}
    (hinv : burnInv st) (hok : burnEventOk e = true) : burnInv (burnStep st e) := by
  obtain ⟨h1, h2, h3⟩ := hinv
  cases e with
  | snapshot s =>
      refine ⟨h1, h2, ?_⟩
      intro s' hs' hres
      have hss : s = s' := by
        simpa [burnStep] using hs'
      subst hss
      unfold burnEventOk at hok
      rw [Bool.or_eq_true] at hok
      rcases hok with hok | hok
      · rw [Bool.not_eq_eq_eq_not] at hok
        simp [hres] at hok
      · exact beq_iff_eq.mp hok
  | clickBurn =>
      simp only [burnStep]
      by_cases hc : burnClickFires st = true
      · rw [if_pos hc]
        unfold burnClickFires at hc
        cases hjd : st.jobData with
        | none => rw [hjd] at hc; simp at hc
        | some s =>
            rw [hjd] at hc
            rw [Bool.and_eq_true, Bool.and_eq_true] at hc
            obtain ⟨⟨hres, hnrun⟩, _⟩ := hc
            have hnotrun : st.burnState ≠ BurnPhase.running := by
              intro hr
              rw [hr] at hnrun
              simp at hnrun
            refine ⟨?_, ?_, ?_⟩
            · have h0 : st.inFlight = 0 := by rw [h1, if_neg hnotrun]
              simp [h0]
            · intro s' hs'
              simp only [hjd, Option.toList_some, List.mem_append, List.mem_singleton] at hs'
              rcases hs' with hs' | hs'
              · exact h2 s' hs'
              · subst hs'
                exact ⟨hres, h3 s' hjd hres⟩
            · intro s' hs' hres'
              have hss : s = s' := by simpa using hs'
              subst hss
              exact h3 s hjd hres'
      · rw [if_neg hc]
        exact ⟨h1, h2, h3⟩
  | burnDone ok =>
      simp only [burnStep]
      by_cases hr : (st.burnState == BurnPhase.running) = true
      · rw [if_pos hr]
        have hrun : st.burnState = BurnPhase.running := beq_iff_eq.mp hr
        refine ⟨?_, h2, h3⟩
        have hone : st.inFlight = 1 := by rw [h1, if_pos hrun]
        cases ok <;> simp [hone]
      · rw [if_neg hr]
        exact ⟨h1, h2, h3⟩

lemma foldl_burnStep_inv : ∀ (events : List BurnEvent) (st : BurnAppState),
    burnInv st → (∀ e ∈ events, burnEventOk e = true) →
    burnInv (events.foldl burnStep st)
  | [], _, h, _ => h
  | e :: es, st, h, hok =>
      foldl_burnStep_inv es _ (burnStep_preserves_inv h (hok e (by simp)))
        (fun e' he' => hok e' (by simp [he']))

lemma burnAppInit_inv (id : String) : burnInv (burnAppInit id) := by
  refine ⟨?_, ?_, ?_⟩
  · simp [burnAppInit]
  · intro s hs
    simp [burnAppInit] at hs
  · intro s hs
    simp [burnAppInit] at hs

/-! ## Claims -/

/-- Claim C1: across any two successive snapshots received while the job's
status is `running`, the later `progress` is at least the earlier one (the
server contract, modelled from the spec since the backend is not among the
frontend sources), and the client performs no clamping — `pollerStep` stores
every successful payload verbatim — so the progress fraction it renders
(`progressValue`, i.e. `Math.round(progress * 100)`) never decreases while
the job runs. -/
theorem running_progress_render_monotone (snaps : List JobResponse)
    (hserver : runningProgressMono snaps = true) :
    renderedProgressMono snaps = true
    ∧ ∀ (st : PollerState) (payload : JobResponse),
        (pollerStep st (.success payload)).data = some payload :=
  ⟨renderedMono_of_runningMono snaps hserver, fun _ _ => rfl⟩

/-- Witness for C1 at a concrete pair of running snapshots. -/
theorem running_progress_render_monotone_witness :
    renderedProgressMono [demoRunningSnap1, demoRunningSnap2] = true :=
  (running_progress_render_monotone [demoRunningSnap1, demoRunningSnap2]
    (by norm_num [runningProgressMono, demoRunningSnap1, demoRunningSnap2])).1

/-- Claim C2: the poller's interval is the fixed constant 2000 ms, its
requests go to `/jobs/{id}`, and once a snapshot with terminal status
(`succeeded`, `failed` or `cancelled`) is processed the interval timer is
cleared and stays cleared over any sequence of later events, so no further
poll request is issued for that job. -/
theorem poll_interval_fixed_and_stops_on_terminal (st : PollerState)
    (payload : JobResponse) (outcomes : List FetchOutcome)
    (hterm : isTerminal payload.status = true) :
    POLL_INTERVAL_MS = 2000
    ∧ (∀ id, pollUrl id = "/jobs/" ++ id)
    ∧ (outcomes.foldl pollerStep (pollerStep st (.success payload))).timerActive = false :=
  ⟨rfl, fun _ => rfl,
    timer_stays_off outcomes _ (by simp [pollerStep, hterm])⟩

/-- Witness for C2: after a succeeded snapshot, later events leave the timer
cleared. -/
theorem poll_interval_fixed_and_stops_on_terminal_witness :
    ([FetchOutcome.failure "offline", FetchOutcome.aborted].foldl pollerStep
        (pollerStep ⟨none, none, true⟩ (.success demoTerminalSnap))).timerActive = false :=
  (poll_interval_fixed_and_stops_on_terminal ⟨none, none, true⟩ demoTerminalSnap
    [.failure "offline", .aborted] (by decide)).2.2

/-- Claim C3 (counterexample): the displayed log list merges entries by the
concatenated string `timestamp ++ "-" ++ message`, not by the pair
`(timestamp, message)`: the two distinct entries `("1-", "m")` and
`("1", "-m")` share the key `"1--m"` and collapse to one entry, refuting
"two incoming entries are merged into one if and only if both their
timestamp and their message are equal". -/
theorem logs_merge_collision :
    updateLogs [] [⟨"1-", "m"⟩, ⟨"1", "-m"⟩] = [⟨"1", "-m"⟩]
    ∧ JobLogEntry.mk "1-" "m" ≠ JobLogEntry.mk "1" "-m" :=
  ⟨rfl, by decide⟩

/-- Claim C3 (amended): after every update, the displayed log list has
pairwise-distinct keys (hence no two entries with equal
`(timestamp, message)`), its length is `min` of the deduplicated length
and 30, it is the most-recent suffix of the full deduplicated sequence,
the full deduplicated sequence lists keys in order of first appearance,
and exactly the keys of the concatenated input survive — so two entries
are merged if and only if their concatenated keys
`timestamp ++ "-" ++ message` coincide (equality of both fields is
sufficient for this, but not necessary). -/
theorem logs_window_amended (prev incoming : List JobLogEntry) :
    ((updateLogs prev incoming).map logKey).Nodup
    ∧ (updateLogs prev incoming).Pairwise
        (fun a b => ¬(a.timestamp = b.timestamp ∧ a.message = b.message))
    ∧ (updateLogs prev incoming).length
        = min ((buildLogMap (prev ++ incoming)).map Prod.snd).length 30
    ∧ (updateLogs prev incoming).length ≤ 30
    ∧ updateLogs prev incoming <:+ (buildLogMap (prev ++ incoming)).map Prod.snd
    ∧ ((buildLogMap (prev ++ incoming)).map Prod.snd).map logKey
        = firstOccKeys ((prev ++ incoming).map logKey)
    ∧ ∀ k, k ∈ firstOccKeys ((prev ++ incoming).map logKey)
        ↔ k ∈ (prev ++ incoming).map logKey := by
  have hcons : ∀ p ∈ buildLogMap (prev ++ incoming), p.1 = logKey p.2 :=
    foldl_mapSet_key_consistent _ [] (by intro p hp; cases hp)
  have hkeys : ((buildLogMap (prev ++ incoming)).map Prod.snd).map logKey
      = (buildLogMap (prev ++ incoming)).map Prod.fst := by
    rw [List.map_map]
    exact List.map_congr_left (fun p hp => by simp [(hcons p hp).symm])
  have hfst : (buildLogMap (prev ++ incoming)).map Prod.fst
      = firstOccKeys ((prev ++ incoming).map logKey) := by
    have h := map_fst_foldl_mapSet (prev ++ incoming) []
    simpa [buildLogMap, firstOccKeys] using h
  have hnodup_full : (((buildLogMap (prev ++ incoming)).map Prod.snd).map logKey).Nodup := by
    rw [hkeys, hfst]
    exact foldl_stepKeys_nodup _ [] List.nodup_nil
  have hsuffix : updateLogs prev incoming <:+ (buildLogMap (prev ++ incoming)).map Prod.snd :=
    List.drop_suffix _ _
  have hnodup_out : ((updateLogs prev incoming).map logKey).Nodup :=
    List.Nodup.sublist (hsuffix.map logKey).sublist hnodup_full
  refine ⟨hnodup_out, ?_, ?_, ?_, hsuffix, hkeys.trans hfst, ?_⟩
  · have h1 : (updateLogs prev incoming).Pairwise (fun a b => logKey a ≠ logKey b) :=
      List.pairwise_map.mp hnodup_out
    refine h1.imp ?_
    intro a b hab hmatch
    exact hab (by unfold logKey; rw [hmatch.1, hmatch.2])
  · show (jsSliceLast 30 _).length = _
    unfold jsSliceLast
    rw [List.length_drop]
    omega
  · show (jsSliceLast 30 _).length ≤ 30
    unfold jsSliceLast
    rw [List.length_drop]
    omega
  · intro k
    have h := mem_foldl_stepKeys ((prev ++ incoming).map logKey) [] k
    simpa [firstOccKeys] using h

/-- Claim C4 (counterexample): at source duration 0 the code's estimate is
absent (`!durationSeconds` is truthy for `0`), although duration times
speed factor is defined (it is 0) — refuting "for every source duration d
... the estimate equals d multiplied by m's speed factor". -/
theorem estimate_processing_zero_counterexample :
    estimateProcessingSeconds (some 0) "base" ≠ some ((0 : ℚ) * modelFactor "base")
    ∧ estimateProcessingSeconds (some 0) "base" = none := by
  constructor
  · intro h
    rw [show estimateProcessingSeconds (some 0) "base" = none from rfl] at h
    exact Option.noConfusion h
  · rfl

/-- Claim C4 (amended): for every nonzero source duration `d` and model `m`
the estimate is `d * modelFactor m` with the factors tiny 0.8, base 1,
small 1.2, medium 1.6, large 2, large-v2 2.1, distil-large-v2 1.3;
smaller/faster models have strictly lower factors; and the estimate is
absent when the source duration is absent (and also, beyond the claim's
wording, when it is zero). -/
theorem estimate_processing_amended :
    (∀ (d : ℚ) (m : String), d ≠ 0 →
        estimateProcessingSeconds (some d) m = some (d * modelFactor m))
    ∧ (∀ m, estimateProcessingSeconds none m = none)
    ∧ modelFactor "tiny" = 8/10 ∧ modelFactor "base" = 1
    ∧ modelFactor "small" = 12/10 ∧ modelFactor "medium" = 16/10
    ∧ modelFactor "large" = 2 ∧ modelFactor "large-v2" = 21/10
    ∧ modelFactor "distil-large-v2" = 13/10
    ∧ modelFactor "tiny" < modelFactor "base"
    ∧ modelFactor "base" < modelFactor "small"
    ∧ modelFactor "small" < modelFactor "medium"
    ∧ modelFactor "medium" < modelFactor "large"
    ∧ modelFactor "large" < modelFactor "large-v2"
    ∧ modelFactor "distil-large-v2" < modelFactor "large-v2" := by
  refine ⟨?_, fun _ => rfl, rfl, rfl, rfl, rfl, rfl, rfl, rfl, ?_, ?_, ?_, ?_, ?_, ?_⟩
  · intro d m hd
    simp [estimateProcessingSeconds, hd]
  · rw [show modelFactor "tiny" = 8/10 from rfl, show modelFactor "base" = 1 from rfl]
    norm_num
  · rw [show modelFactor "base" = 1 from rfl, show modelFactor "small" = 12/10 from rfl]
    norm_num
  · rw [show modelFactor "small" = 12/10 from rfl, show modelFactor "medium" = 16/10 from rfl]
    norm_num
  · rw [show modelFactor "medium" = 16/10 from rfl, show modelFactor "large" = 2 from rfl]
    norm_num
  · rw [show modelFactor "large" = 2 from rfl, show modelFactor "large-v2" = 21/10 from rfl]
    norm_num
  · rw [show modelFactor "distil-large-v2" = 13/10 from rfl,
      show modelFactor "large-v2" = 21/10 from rfl]
    norm_num

/-- Witness for amended C4: a 60-second source on the `large` model is
estimated at 120 seconds of processing. -/
theorem estimate_processing_amended_witness :
    estimateProcessingSeconds (some 60) "large" = some 120 := by
  have h := estimate_processing_amended.1 60 "large" (by norm_num)
  rw [h, show modelFactor "large" = 2 from rfl]
  norm_num

/-- Claim C5: when the speaker inputs pass the HTML constraint validation
declared by their JSX attributes (`min={1}`/`max={maxSpeakers}` on the min
input, `min={minSpeakers}` on the max input, both enabled exactly when
diarization is on) and diarization is enabled, the submitted configuration
satisfies `min_speakers ≤ max_speakers`. -/
theorem submitted_speakers_ordered (f : SpeakerForm)
    (hvalid : speakerInputsSubmittable f = true) (hdia : f.diarization = true) :
    (submittedSpeakerFields f).min_speakers ≤ (submittedSpeakerFields f).max_speakers
    ∧ (submittedSpeakerFields f).diarization = true := by
  refine ⟨?_, hdia⟩
  unfold speakerInputsSubmittable at hvalid
  rw [if_pos hdia] at hvalid
  rw [Bool.and_eq_true, Bool.and_eq_true] at hvalid
  obtain ⟨⟨_, hle⟩, _⟩ := hvalid
  rw [decide_eq_true_iff] at hle
  exact hle

/-- Witness for C5 at the default form values with diarization enabled. -/
theorem submitted_speakers_ordered_witness :
    (submittedSpeakerFields ⟨true, 1, 2⟩).min_speakers
      ≤ (submittedSpeakerFields ⟨true, 1, 2⟩).max_speakers :=
  (submitted_speakers_ordered ⟨true, 1, 2⟩ (by decide) (by decide)).1

/-- Claim C6: over any event sequence of the burn flow whose snapshots
respect the server contract (`results` set only on `succeeded` jobs,
modelled from the spec since the backend is not among the frontend
sources), at most one burn request is in flight at any time, and every
issued burn request was made against a snapshot with `results` set —
hence, by the contract, a `succeeded` job. -/
theorem burn_requests_guarded (id : String) (events : List BurnEvent)
    (hok : ∀ e ∈ events, burnEventOk e = true) :
    (burnRun id events).inFlight ≤ 1
    ∧ ∀ s ∈ (burnRun id events).requests,
        s.results.isSome = true ∧ s.status = JobStatus.succeeded := by
  have h := foldl_burnStep_inv events (burnAppInit id) (burnAppInit_inv id) hok
  refine ⟨?_, h.2.1⟩
  rw [show (burnRun id events).inFlight = (events.foldl burnStep (burnAppInit id)).inFlight
    from rfl, h.1]
  split <;> omega

/-- Witness for C6 on the sample burn-flow run. -/
theorem burn_requests_guarded_witness :
    (burnRun "job-1" demoBurnEvents).inFlight ≤ 1
    ∧ ∀ s ∈ (burnRun "job-1" demoBurnEvents).requests,
        s.results.isSome = true ∧ s.status = JobStatus.succeeded :=
  burn_requests_guarded "job-1" demoBurnEvents
    (by intro e he; fin_cases he <;> rfl)

/-- Claim C7: for every non-2xx response, the submit path, the burn path and
the poll path all surface exactly the response body text as the
user-visible error message. -/
theorem plain_text_error_surfaced (resp : HttpResponse) (st : PollerState)
    (payload : JobResponse) (hnotok : resp.ok = false) :
    submitErrorShown resp = some resp.bodyText
    ∧ burnErrorShown resp = some resp.bodyText
    ∧ (pollerStep st (pollOutcomeOf resp payload)).error = some resp.bodyText := by
  refine ⟨?_, ?_, ?_⟩
  · simp [submitErrorShown, hnotok]
  · simp [burnErrorShown, hnotok]
  · simp [pollerStep, pollOutcomeOf, hnotok]

/-- Witness for C7 on a concrete 404-style response. -/
theorem plain_text_error_surfaced_witness :
    (pollerStep ⟨none, none, true⟩
        (pollOutcomeOf ⟨false, "job not found"⟩ demoTerminalSnap)).error
      = some "job not found" :=
  (plain_text_error_surfaced ⟨false, "job not found"⟩ ⟨none, none, true⟩
    demoTerminalSnap rfl).2.2

/-- Claim C8: the pre-transcription duration estimate for an uploaded file
is its byte size divided by the assumed constant bitrate of 16000 bytes
per second, and it is absent when no file is selected. -/
theorem upload_duration_estimate (file : JsFile) :
    estimateDurationFromFile (some file) = some (file.size / 16000)
    ∧ estimateDurationFromFile none = none
    ∧ assumedBytesPerSecond = 16000 :=
  ⟨rfl, rfl, rfl⟩

/-- Claim C9: a failed poll leaves the last successfully fetched snapshot
unchanged and only sets the error message, while a successful poll stores
the new snapshot and clears the error. -/
theorem poll_failure_preserves_snapshot (st : PollerState) (msg : String)
    (payload : JobResponse) :
    (pollerStep st (.failure msg)).data = st.data
    ∧ (pollerStep st (.failure msg)).error = some msg
    ∧ (pollerStep st (.success payload)).error = none
    ∧ (pollerStep st (.success payload)).data = some payload :=
  ⟨rfl, rfl, rfl, rfl⟩

/-- Claim C10 (counterexample): on a dictionary without an own `toString`
entry, the bracket access `dictionary["toString"]` yields the inherited
`Object.prototype.toString`, which is non-nullish, so `?? key` does not
fall back and `t "toString"` returns the inherited member — neither a
dictionary entry nor the key itself — refuting "otherwise it returns the
key itself unchanged". -/
theorem translation_proto_counterexample :
    tFun [("app.title", "Whisper GUI")] "toString" = JsValue.inherited "toString"
    ∧ JsValue.inherited "toString" ≠ JsValue.str "toString"
    ∧ dictLookup [("app.title", "Whisper GUI")] "toString" = none :=
  ⟨rfl, by decide, rfl⟩

/-- Claim C10 (amended): the translation function is total — it returns the
dictionary entry when the active language's dictionary has an own entry
for the key; failing that it returns the inherited `Object.prototype`
member when the key names one; and only otherwise the key itself. Being a
Lean function into `JsValue`, it never throws and never produces an
undefined value. -/
theorem translation_total_amended (dict : Dictionary) (key : String) :
    (∀ v, dictLookup dict key = some v → tFun dict key = .str v)
    ∧ (dictLookup dict key = none → key ∈ objectProtoKeys →
        tFun dict key = .inherited key)
    ∧ (dictLookup dict key = none → key ∉ objectProtoKeys →
        tFun dict key = .str key) := by
  refine ⟨?_, ?_, ?_⟩
  · intro v h
    rw [tFun, jsGet, h]
    rfl
  · intro h hp
    rw [tFun, jsGet, h]
    simp [hp]
  · intro h hp
    rw [tFun, jsGet, h]
    simp [hp]

/-- Witness for amended C10 on a one-entry dictionary: a present key
returns its entry, and a missing key that shadows nothing inherited
returns itself. -/
theorem translation_total_amended_witness :
    tFun [("app.title", "Whisper GUI")] "app.title" = JsValue.str "Whisper GUI"
    ∧ tFun [("app.title", "Whisper GUI")] "status.none" = JsValue.str "status.none" :=
  ⟨(translation_total_amended [("app.title", "Whisper GUI")] "app.title").1
      "Whisper GUI" rfl,
    (translation_total_amended [("app.title", "Whisper GUI")] "status.none").2.2
      rfl (by decide)⟩

end WhisperGui
